import Mathlib

/-!
Verification of the dual-record synchronization layer of the FrontEnd
career-recommendation app: a shallow embedding of src/utils/userStorage.js
and src/utils/csv.js (plus the avatar normalization step of readCSV), and
theorems settling the specification claims about it.

The browser localStorage is modelled as an explicit state record holding
the keys the sync layer uses: the csv_users row list, the user_json_ detail
documents, the user_files name map and the deleted_images list.  Fetching
and parsing the baseline CSV file is abstracted as a parameter of type
Option (List Row): none models a failed fetch, some rows a successful load
of the parsed baseline.  The random avatar choice of getRandomAvatarFile is
abstracted as a function parameter from the gender tag to a file name; every
readCSV invocation carries its own such function, reflecting that each call
draws fresh random values.  JavaScript duck typing is modelled with Option:
none is an absent field, some a present string, and truthiness and the
or-default idioms are explicit functions.
-/

namespace FrontEnd

/-- JavaScript truthiness of a possibly absent string: undefined and the
empty string are falsy, every other string truthy. -/
def jsTruthyS : Option String → Bool
  | none => false
  | some s => decide (s ≠ "")

/-- The JavaScript idiom a or-else b on possibly absent strings: yields a
when a is truthy, otherwise b. -/
def jsOrS (a b : Option String) : Option String :=
  if jsTruthyS a then a else b

/-- The JavaScript idiom x or-else empty string: absent and empty both give
the empty string, so this is just getD. -/
def strOr0 (a : Option String) : String := a.getD ""

/-- The JavaScript idiom x or-else empty list on an array-valued field: a
present array is always truthy (even when empty), an absent field defaults
to the empty list. -/
def listOr0 (a : Option (List String)) : List String := a.getD []

/-- ASCII lowercasing, the effect of String.prototype.toLowerCase on the
character set this app stores. -/
def jsToLower (s : String) : String := String.mk (s.data.map Char.toLower)

/-- Membership in the regex class a-z A-Z 0-9. -/
def jsIsAlnum (c : Char) : Bool :=
  (decide ('a' ≤ c) && decide (c ≤ 'z')) ||
  (decide ('A' ≤ c) && decide (c ≤ 'Z')) ||
  (decide ('0' ≤ c) && decide (c ≤ '9'))

/-- First replace of getFileName: every character outside a-zA-Z0-9 is
replaced by an underscore (global single-character regex). -/
def replaceNonAlnum (s : String) : String :=
  String.mk (s.data.map fun c => if jsIsAlnum c then c else '_')

/-- ASCII whitespace, the regex class backslash-s restricted to the
characters that can still occur here. -/
def jsIsSpace (c : Char) : Bool :=
  decide (c = ' ') || decide (c = '\t') || decide (c = '\n') ||
  decide (c = '\r') || decide (c = '\x0b') || decide (c = '\x0c')

/-- Second replace of getFileName: each maximal run of whitespace becomes a
single underscore.  The boolean argument records whether the previous
character was part of a whitespace run. -/
def collapseWsAux : List Char → Bool → List Char
  | [], _ => []
  | c :: rest, inRun =>
    if jsIsSpace c then
      if inRun then collapseWsAux rest true
      else '_' :: collapseWsAux rest true
    else c :: collapseWsAux rest false

/-- The whitespace-collapsing replace applied to a string. -/
def collapseWs (s : String) : String :=
  String.mk (collapseWsAux s.data false)

/-- getFileName of userStorage.js: replace non-alphanumerics by
underscores, collapse whitespace runs to an underscore, lowercase. -/
def getFileName (name : String) : String :=
  jsToLower (collapseWs (replaceNonAlnum name))

/-- A summary row as stored in csv_users or parsed from the baseline CSV:
a duck-typed object whose fields may be absent (legacy rows carry name,
email, avatar; new-format rows carry full_name, email_address,
profile_picture). -/
structure Row where
  name : Option String := none
  email : Option String := none
  full_name : Option String := none
  email_address : Option String := none
  password : Option String := none
  gender : Option String := none
  country : Option String := none
  year : Option String := none
  profile_picture : Option String := none
  avatar : Option String := none
  recommendations_selected : Option String := none
  bio : Option String := none
deriving Repr, DecidableEq

/-- The payload object handed to saveUserDataDual: every field may be
absent, list-valued fields are arrays. -/
structure Payload where
  name : Option String := none
  full_name : Option String := none
  email : Option String := none
  email_address : Option String := none
  password : Option String := none
  gender : Option String := none
  country : Option String := none
  year : Option String := none
  education : Option String := none
  custom_interest : Option String := none
  custom_skill : Option String := none
  profile_picture : Option String := none
  bio : Option String := none
  interests : Option (List String) := none
  skills : Option (List String) := none
  recommendations_saved : Option (List String) := none
  recommendations_selected : Option (List String) := none
  recommendations_rejected : Option (List String) := none
deriving Repr, DecidableEq

/-- The full detail record written to the user_json_ document: every field
defaulted, so all are present. -/
structure UserDetail where
  full_name : String
  email_address : String
  password : String
  gender : String
  country : String
  year : String
  education : String
  interests : List String
  custom_interest : String
  skills : List String
  custom_skill : String
  profile_picture : String
  bio : String
  recommendations_saved : List String
  recommendations_selected : List String
  recommendations_rejected : List String
deriving Repr, DecidableEq

/-- The flattened csvData object built by saveUserDataDual: essential
fields only, list of selected recommendations joined to one string. -/
structure CsvData where
  full_name : String
  email_address : String
  password : String
  gender : String
  country : String
  year : String
  profile_picture : String
  recommendations_selected : String
  bio : String
deriving Repr, DecidableEq

/-- Association-list model of a localStorage key family: first binding
wins on lookup. -/
def lsGet {α : Type} (l : List (String × α)) (k : String) : Option α :=
  (l.find? fun p => decide (p.1 = k)).map (·.2)

/-- localStorage.setItem: a map update, the new binding replacing any
previous binding of the key. -/
def lsSet {α : Type} (l : List (String × α)) (k : String) (v : α) :
    List (String × α) :=
  (k, v) :: l.filter fun p => decide (p.1 ≠ k)

/-- localStorage.removeItem: drop every binding of the key. -/
def lsRemove {α : Type} (l : List (String × α)) (k : String) :
    List (String × α) :=
  l.filter fun p => decide (p.1 ≠ k)

/-- The localStorage keys the synchronization layer reads and writes. -/
structure St where
  csv_users : List Row := []
  details : List (String × UserDetail) := []
  user_files : List (String × String) := []
  deleted_images : List String := []
deriving Repr, DecidableEq

/-- The empty browser storage: every getItem misses, so each parsed value
is its default. -/
def st0 : St := {}

/-- The avatar-assignment step of readCSV: a row without an avatar field
gets one chosen from its gender by the random chooser pick. -/
def normalizeRow (pick : Option String → String) (r : Row) : Row :=
  if r.avatar.isSome then r else { r with avatar := some (pick r.gender) }

/-- The merge loop of readCSV: each cached user is appended unless some
already accumulated row has a strictly equal legacy email field (absent
matches absent, the comparison is the strict equality of the source). -/
def mergeUsers : List Row → List Row → List Row
  | acc, [] => acc
  | acc, c :: rest =>
    if acc.any (fun u => decide (u.email = c.email)) then mergeUsers acc rest
    else mergeUsers (acc ++ [c]) rest

/-- readCSV of csv.js.  baseline is the fetched and parsed d.csv: some rows
on success, none when the fetch fails.  On success the baseline is merged
with the cached csv_users, avatars are assigned, and the result is written
back to csv_users; on failure the cache is returned unchanged. -/
def readCSV (baseline : Option (List Row)) (pick : Option String → String)
    (s : St) : St × List Row :=
  match baseline with
  | some base =>
    let allUsers := mergeUsers base s.csv_users
    let normalized := allUsers.map (normalizeRow pick)
    ({ s with csv_users := normalized }, normalized)
  | none => (s, s.csv_users)

/-- The email predicate of findUserByEmail and of the findIndex inside
updateCSVRow: case-insensitive match on the legacy email field or on
email_address, an absent field never matching. -/
def rowEmailMatches (email : String) (r : Row) : Bool :=
  (match r.email with
   | some s => decide (jsToLower s = jsToLower email)
   | none => false) ||
  (match r.email_address with
   | some s => decide (jsToLower s = jsToLower email)
   | none => false)

/-- The name predicate of findUserByName: case-insensitive match on the
legacy name field or on full_name. -/
def rowNameMatches (name : String) (r : Row) : Bool :=
  (match r.name with
   | some s => decide (jsToLower s = jsToLower name)
   | none => false) ||
  (match r.full_name with
   | some s => decide (jsToLower s = jsToLower name)
   | none => false)

/-- findUserByEmail of csv.js: read (and thereby rewrite) the store, then
return the first matching row. -/
def findUserByEmail (email : String) (baseline : Option (List Row))
    (pick : Option String → String) (s : St) : St × Option Row :=
  let res := readCSV baseline pick s
  (res.1, res.2.find? (rowEmailMatches email))

/-- findUserByName of csv.js. -/
def findUserByName (name : String) (baseline : Option (List Row))
    (pick : Option String → String) (s : St) : St × Option Row :=
  let res := readCSV baseline pick s
  (res.1, res.2.find? (rowNameMatches name))

/-- Array.prototype.findIndex, with none standing for the miss value -1. -/
def jsFindIndex {α : Type} (p : α → Bool) : List α → Option Nat
  | [] => none
  | a :: l => if p a then some 0 else (jsFindIndex p l).map (· + 1)

/-- saveUserJson of userStorage.js: when a truthy previous name differs
from the new name, the old document and its user_files entry are removed
first; then the document is written under the key derived from the new
name and the name map updated.  In the exception-free storage model the
write always succeeds, so the returned flag is true. -/
def saveUserJson (name : String) (data : UserDetail)
    (oldName : Option String) (s : St) : St × Bool :=
  let fileName := getFileName name
  let s1 :=
    if jsTruthyS oldName && decide (oldName ≠ some name) then
      let s' := { s with
        details := lsRemove s.details
          ("user_json_" ++ getFileName (oldName.getD "")) }
      { s' with user_files := lsRemove s'.user_files (oldName.getD "") }
    else s
  let s2 := { s1 with details := lsSet s1.details ("user_json_" ++ fileName) data }
  let s3 := { s2 with user_files := lsSet s2.user_files name fileName }
  (s3, true)

/-- loadUserJson of userStorage.js: look the document up under the key
derived from the name; a miss is null. -/
def loadUserJson (name : String) (s : St) : Option UserDetail :=
  lsGet s.details ("user_json_" ++ getFileName name)

/-- deleteOldImage of userStorage.js: record the path in the
deleted_images list unless it is falsy or already present. -/
def deleteOldImage (imagePath : String) (s : St) : St :=
  if imagePath = "" then s
  else if imagePath ∈ s.deleted_images then s
  else { s with deleted_images := s.deleted_images ++ [imagePath] }

/-- The new-format row object that updateCSVRow writes in place and that
the append branch pushes: exactly the csvData fields, each re-defaulted by
the or-else-empty idiom (an identity here since every field is a present
string), and no legacy name, email or avatar field. -/
def rowOfCsvData (d : CsvData) : Row :=
  { full_name := some d.full_name
    email_address := some d.email_address
    password := some d.password
    gender := some d.gender
    country := some d.country
    year := some d.year
    profile_picture := some d.profile_picture
    recommendations_selected := some d.recommendations_selected
    bio := some d.bio }

/-- updateCSVRow of userStorage.js: re-read the store, find the row by
email, give up (false) on a miss; otherwise track a changed old image path
and overwrite the row completely with the new data. -/
def updateCSVRow (email : String) (d : CsvData) (oldImagePath : Option String)
    (baseline : Option (List Row)) (pick : Option String → String)
    (s : St) : St × Bool :=
  let res := readCSV baseline pick s
  let s1 := res.1
  let users := res.2
  match jsFindIndex (rowEmailMatches email) users with
  | none => (s1, false)
  | some i =>
    let s2 :=
      if jsTruthyS oldImagePath && decide (oldImagePath.getD "" ≠ d.profile_picture)
      then deleteOldImage (oldImagePath.getD "") s1
      else s1
    ({ s2 with csv_users := users.set i (rowOfCsvData d) }, true)

/-- The validation test of saveUserDataDual: the effective full name
(full_name falling back to legacy name) and the effective email
(email_address falling back to legacy email) must both be truthy. -/
def validPayload (p : Payload) : Bool :=
  jsTruthyS (jsOrS p.full_name p.name) && jsTruthyS (jsOrS p.email_address p.email)

/-- The effective full name of a payload after the fallback. -/
def effName (p : Payload) : String := (jsOrS p.full_name p.name).getD ""

/-- The effective email of a payload after the fallback. -/
def effEmail (p : Payload) : String := (jsOrS p.email_address p.email).getD ""

/-- The jsonData object saveUserDataDual writes to the detail store: every
optional field defaulted, list fields replaced wholesale. -/
def buildJsonData (fullName email : String) (p : Payload) : UserDetail :=
  { full_name := fullName
    email_address := email
    password := strOr0 p.password
    gender := strOr0 p.gender
    country := strOr0 p.country
    year := strOr0 p.year
    education := strOr0 p.education
    interests := listOr0 p.interests
    custom_interest := strOr0 p.custom_interest
    skills := listOr0 p.skills
    custom_skill := strOr0 p.custom_skill
    profile_picture := strOr0 p.profile_picture
    bio := strOr0 p.bio
    recommendations_saved := listOr0 p.recommendations_saved
    recommendations_selected := listOr0 p.recommendations_selected
    recommendations_rejected := listOr0 p.recommendations_rejected }

/-- The csvData object saveUserDataDual derives for the summary store: a
present array of selected recommendations is joined with a semicolon
separator, an absent one defaults to the empty string. -/
def buildCsvData (fullName email : String) (p : Payload) : CsvData :=
  { full_name := fullName
    email_address := email
    password := strOr0 p.password
    gender := strOr0 p.gender
    country := strOr0 p.country
    year := strOr0 p.year
    profile_picture := strOr0 p.profile_picture
    recommendations_selected :=
      match p.recommendations_selected with
      | some l => String.intercalate "; " l
      | none => ""
    bio := strOr0 p.bio }

/-- saveUserDataDual of userStorage.js, the syncUser entry point: validate,
write the detail document (with rename handling), then either overwrite the
existing summary row found by email or append a new one; the returned flag
is the detail-write flag, the summary-half result being discarded.  pickA
and pickB are the avatar choosers of the two readCSV invocations the call
performs. -/
def saveUserDataDual (p : Payload) (oldName oldImagePath : Option String)
    (baseline : Option (List Row)) (pickA pickB : Option String → String)
    (s : St) : St × Bool :=
  if validPayload p then
    let fullName := effName p
    let email := effEmail p
    let jsonData := buildJsonData fullName email p
    let save1 := saveUserJson fullName jsonData oldName s
    let s1 := save1.1
    let jsonSaved := save1.2
    let d := buildCsvData fullName email p
    let found := findUserByEmail email baseline pickA s1
    let s2 := found.1
    match found.2 with
    | some _ =>
      let upd := updateCSVRow email d oldImagePath baseline pickB s2
      (upd.1, jsonSaved)
    | none =>
      let res := readCSV baseline pickB s2
      ({ res.1 with csv_users := res.2 ++ [rowOfCsvData d] }, jsonSaved)
  else (s, false)

/-- The result of checkUserExists. -/
structure ExistsResult where
  exists_ : Bool
  byName : Bool
  byEmail : Bool
deriving Repr, DecidableEq

/-- checkUserExists of userStorage.js: probe both lookups (each re-reading
the store) and report them. -/
def checkUserExists (name email : String) (baseline : Option (List Row))
    (pickN pickE : Option String → String) (s : St) : St × ExistsResult :=
  let byName := findUserByName name baseline pickN s
  let byEmail := findUserByEmail email baseline pickE byName.1
  (byEmail.1,
   { exists_ := byName.2.isSome || byEmail.2.isSome
     byName := byName.2.isSome
     byEmail := byEmail.2.isSome })

/-- The key-derivation function as the specification words describe it,
for comparison with getFileName: characters outside a-zA-Z0-9 stripped
(removed), whitespace collapsed, the result lowercased. -/
def specKeyOfName (name : String) : String :=
  jsToLower (collapseWs (String.mk (name.data.filter jsIsAlnum)))

/-- The boolean result flow of saveUserDataDual with the storage-exception
outcomes of its try/catch boundaries made explicit as parameters:
jsonSaved is the flag returned by saveUserJson (its internal catch converts
a detail-write exception to false); updateOk is the flag returned by
updateCSVRow on the existing-user branch, which the source awaits but
discards; appendThrows tells whether the setItem of the append branch
throws, which escapes to the outer catch and yields false.  findUserByEmail
and updateCSVRow catch internally and cannot throw. -/
def saveUserDataDualResult (p : Payload)
    (existingFound jsonSaved updateOk appendThrows : Bool) : Bool :=
  if validPayload p then
    if existingFound then jsonSaved
    else if appendThrows then false
    else jsonSaved
  else false

/-- One syncUser invocation: the payload and optional rename and image
arguments, together with the environment of the call (baseline dataset and
the avatar choosers of its two store reads). -/
structure SyncCall where
  payload : Payload
  oldName : Option String := none
  oldImagePath : Option String := none
  baseline : Option (List Row) := none
  pickA : Option String → String
  pickB : Option String → String

/-- Run a sequence of syncUser calls against a storage state. -/
def runSyncCalls (calls : List SyncCall) (s : St) : St :=
  calls.foldl
    (fun st c =>
      (saveUserDataDual c.payload c.oldName c.oldImagePath c.baseline
        c.pickA c.pickB st).1) s

/-- The part of the readCSV merge appended after the baseline: the cached
rows kept by the duplicate test, phrased as its own recursion to reason
about the merge loop. -/
def mergeExtra : List Row → List Row → List Row
  | _, [] => []
  | acc, c :: rest =>
    if acc.any (fun u => decide (u.email = c.email)) then mergeExtra acc rest
    else c :: mergeExtra (acc ++ [c]) rest

/-! ### Concrete fixtures used by the evaluation theorems -/

/-- A deterministic avatar chooser standing for one draw of
getRandomAvatarFile. -/
def pkFix : Option String → String := fun _ => "01_female_2001.jpg.jpg"

/-- A signup payload in the new format, as registerUser builds it. -/
def pBobFix : Payload :=
  { full_name := some "Bob Jones", email_address := some "bob@x.test",
    password := some "secret1" }

/-- A second new-format signup payload with a distinct email. -/
def pCarolFix : Payload :=
  { full_name := some "Carol Ann", email_address := some "carol@x.test",
    password := some "secret2" }

/-- A legacy-format baseline row, as parseCSV yields from the old CSV
header name,email,password,gender,year,country. -/
def adaBaselineRow : Row :=
  { name := some "Ada", email := some "ada@x.test", password := some "pw",
    gender := some "female", year := some "2000", country := some "X" }

/-- The payload of a profile edit of the baseline user Ada. -/
def pAdaFix : Payload :=
  { full_name := some "Ada", email_address := some "ada@x.test",
    password := some "pw", gender := some "female", year := some "2000",
    country := some "X" }

/-- A payload whose name collides with a differently spelled one under
key normalization. -/
def pDashFix : Payload :=
  { full_name := some "Ada-Lovelace", email_address := some "ada@x.test" }

/-- The same user after renaming to the space-spelled variant. -/
def pSpaceFix : Payload :=
  { full_name := some "Ada Lovelace", email_address := some "ada@x.test" }

/-- A payload renaming a user to a name with a fresh storage key. -/
def pGraceFix : Payload :=
  { full_name := some "Grace Hopper", email_address := some "g@x.test" }

/-- A payload carrying only the legacy name and email fields. -/
def pLegacyFix : Payload :=
  { name := some "Bob", email := some "bob@x.test" }

/-- A payload with neither name field present. -/
def pNoNameFix : Payload := { email_address := some "x@y.test" }

/-- A minimal valid payload. -/
def pValidFix : Payload :=
  { full_name := some "Bob", email_address := some "b@x" }

/-- A payload storing one skill. -/
def pPythonFix : Payload :=
  { full_name := some "Bob Jones", email_address := some "bob@x.test",
    skills := some ["Python"] }

/-- The same user saving an empty skill list. -/
def pNoSkillFix : Payload :=
  { full_name := some "Bob Jones", email_address := some "bob@x.test",
    skills := some [] }

/-- A sample detail record. -/
def sampleDetail : UserDetail := buildJsonData "Sample Name" "s@x.test" {}

/-- A sample syncUser invocation. -/
def syncCallFix : SyncCall :=
  { payload := pBobFix, baseline := some [], pickA := pkFix, pickB := pkFix }

/-! ### Lemmas about the key-value store model -/

theorem lsGet_remove_self {α : Type} (l : List (String × α)) (k : String) :
    lsGet (lsRemove l k) k = none := by
  unfold lsGet lsRemove
  have h : (l.filter fun p => decide (p.1 ≠ k)).find?
      (fun p => decide (p.1 = k)) = none := by
    rw [List.find?_eq_none]
    intro x hx
    have := List.of_mem_filter hx
    simpa using this
  rw [h]
  rfl

theorem lsGet_remove_ne {α : Type} (l : List (String × α)) (k k' : String)
    (h : k' ≠ k) : lsGet (lsRemove l k) k' = lsGet l k' := by
  unfold lsGet lsRemove
  congr 1
  rw [List.find?_filter]
  congr 1
  funext a
  by_cases ha : a.1 = k'
  · have hak : ¬ (a.1 = k) := by
      rw [ha]
      exact h
    simp [ha, hak, h]
  · simp [ha]

theorem lsGet_set_self {α : Type} (l : List (String × α)) (k : String) (v : α) :
    lsGet (lsSet l k v) k = some v := by
  unfold lsSet lsGet
  rw [List.find?_cons]
  simp

theorem lsGet_set_ne {α : Type} (l : List (String × α)) (k k' : String)
    (v : α) (h : k' ≠ k) : lsGet (lsSet l k v) k' = lsGet l k' := by
  unfold lsSet
  have hk : decide ((k, v).1 = k') = false := by
    simp only [decide_eq_false_iff_not]
    exact fun hk => h hk.symm
  show lsGet ((k, v) :: l.filter fun p => decide (p.1 ≠ k)) k' = lsGet l k'
  unfold lsGet
  rw [List.find?_cons, hk]
  exact lsGet_remove_ne l k k' h

/-! ### Lemmas about key derivation -/

theorem jsIsAlnum_not_space {c : Char} (h : jsIsAlnum c = true) :
    jsIsSpace c = false := by
  by_contra hs
  rw [Bool.not_eq_false] at hs
  unfold jsIsSpace at hs
  simp only [Bool.or_eq_true, decide_eq_true_eq] at hs
  rcases hs with ((((h1 | h1) | h1) | h1) | h1) | h1 <;> subst h1 <;>
    revert h <;> decide

theorem collapseWsAux_of_no_space :
    ∀ (l : List Char), (∀ c ∈ l, jsIsSpace c = false) → ∀ (b : Bool),
      collapseWsAux l b = l
  | [], _, _ => rfl
  | c :: l, h, b => by
    have hc : jsIsSpace c = false := h c (by simp)
    unfold collapseWsAux
    rw [hc]
    simp only [Bool.false_eq_true, if_false]
    rw [collapseWsAux_of_no_space l (fun d hd => h d (by simp [hd])) false]

/-- The whitespace-collapsing stage of getFileName never fires: after the
first replace no whitespace remains, so the key is just the lowercase of
the name with non-alphanumerics turned into underscores. -/
theorem getFileName_eq_simple (name : String) :
    getFileName name = jsToLower (replaceNonAlnum name) := by
  unfold getFileName collapseWs
  congr 1
  have hns : ∀ c ∈ (replaceNonAlnum name).data, jsIsSpace c = false := by
    intro c hc
    unfold replaceNonAlnum at hc
    simp only [List.mem_map] at hc
    obtain ⟨d, _, hd⟩ := hc
    by_cases hda : jsIsAlnum d
    · rw [if_pos hda] at hd
      exact hd ▸ jsIsAlnum_not_space hda
    · rw [if_neg hda] at hd
      subst hd
      decide
  rw [collapseWsAux_of_no_space _ hns false]

/-! ### Lemmas about avatar normalization -/

theorem normalizeRow_email (pick : Option String → String) (r : Row) :
    (normalizeRow pick r).email = r.email := by
  unfold normalizeRow
  split <;> rfl

theorem normalizeRow_email_address (pick : Option String → String) (r : Row) :
    (normalizeRow pick r).email_address = r.email_address := by
  unfold normalizeRow
  split <;> rfl

theorem rowEmailMatches_normalizeRow (e : String)
    (pick : Option String → String) (r : Row) :
    rowEmailMatches e (normalizeRow pick r) = rowEmailMatches e r := by
  unfold rowEmailMatches
  rw [normalizeRow_email, normalizeRow_email_address]

theorem normalizeRow_comp (pA pB : Option String → String) (r : Row) :
    normalizeRow pB (normalizeRow pA r) = normalizeRow pA r := by
  unfold normalizeRow
  by_cases h : r.avatar.isSome = true
  · simp [h]
  · simp [h]

theorem map_norm_norm (pA pB : Option String → String) (l : List Row) :
    (l.map (normalizeRow pA)).map (normalizeRow pB) = l.map (normalizeRow pA) := by
  rw [List.map_map]
  apply List.map_congr_left
  intro a _
  exact normalizeRow_comp pA pB a

/-! ### Lemmas about the readCSV merge loop -/

theorem mergeUsers_eq : ∀ (rest acc : List Row),
    mergeUsers acc rest = acc ++ mergeExtra acc rest
  | [], acc => by simp [mergeUsers, mergeExtra]
  | c :: rest, acc => by
    unfold mergeUsers mergeExtra
    by_cases h : acc.any (fun u => decide (u.email = c.email)) = true
    · simp only [h, if_true]
      exact mergeUsers_eq rest acc
    · simp only [h, if_false]
      rw [mergeUsers_eq rest (acc ++ [c])]
      simp

theorem mergeExtra_subset : ∀ (rest acc : List Row) (x : Row),
    x ∈ mergeExtra acc rest → x ∈ rest
  | [], _, _, h => by simp [mergeExtra] at h
  | c :: rest, acc, x, h => by
    unfold mergeExtra at h
    by_cases hc : acc.any (fun u => decide (u.email = c.email)) = true
    · simp only [hc, if_true] at h
      exact List.mem_cons_of_mem c (mergeExtra_subset rest acc x h)
    · simp only [hc, if_false] at h
      rcases List.mem_cons.mp h with h | h
      · exact h ▸ List.mem_cons_self c rest
      · exact List.mem_cons_of_mem c (mergeExtra_subset rest (acc ++ [c]) x h)

theorem mergeExtra_email_fresh : ∀ (rest acc : List Row) (x : Row),
    x ∈ mergeExtra acc rest → ∀ u ∈ acc, ¬ u.email = x.email
  | [], _, _, h => by simp [mergeExtra] at h
  | c :: rest, acc, x, h => by
    unfold mergeExtra at h
    by_cases hc : acc.any (fun u => decide (u.email = c.email)) = true
    · simp only [hc, if_true] at h
      exact mergeExtra_email_fresh rest acc x h
    · simp only [hc, if_false] at h
      rcases List.mem_cons.mp h with h | h

      · subst h
        intro u hu
        have := List.any_eq_false.mp (Bool.eq_false_iff.mpr hc) u hu
        simpa using this
      · intro u hu
        exact mergeExtra_email_fresh rest (acc ++ [c]) x h u
          (List.mem_append_left _ hu)

theorem mergeExtra_pairwise : ∀ (rest acc : List Row),
    List.Pairwise (fun a b => ¬ a.email = b.email) (mergeExtra acc rest)
  | [], _ => by simp [mergeExtra]
  | c :: rest, acc => by
    unfold mergeExtra
    by_cases hc : acc.any (fun u => decide (u.email = c.email)) = true
    · simp only [hc, if_true]
      exact mergeExtra_pairwise rest acc
    · simp only [hc, if_false]
      refine List.Pairwise.cons ?_ (mergeExtra_pairwise rest (acc ++ [c]))
      intro x hx
      exact mergeExtra_email_fresh rest (acc ++ [c]) x hx c
        (List.mem_append_right _ (List.mem_singleton.mpr rfl))

theorem mergeUsers_cons_eq (acc : List Row) (c : Row) (rest : List Row) :
    mergeUsers acc (c :: rest) =
      if acc.any (fun u => decide (u.email = c.email)) then mergeUsers acc rest
      else mergeUsers (acc ++ [c]) rest := rfl

theorem mergeUsers_skip : ∀ (L1 acc : List Row),
    (∀ c ∈ L1, ∃ u ∈ acc, u.email = c.email) → ∀ (L2 : List Row),
    mergeUsers acc (L1 ++ L2) = mergeUsers acc L2
  | [], _, _, _ => by simp
  | c :: L1, acc, h, L2 => by
    have hc : acc.any (fun u => decide (u.email = c.email)) = true := by
      obtain ⟨u, hu, he⟩ := h c (List.mem_cons_self c L1)
      exact List.any_eq_true.mpr ⟨u, hu, by simp [he]⟩
    show mergeUsers acc (c :: (L1 ++ L2)) = mergeUsers acc L2
    rw [mergeUsers_cons_eq, if_pos hc]
    exact mergeUsers_skip L1 acc
      (fun d hd => h d (List.mem_cons_of_mem c hd)) L2

theorem mergeUsers_append_all : ∀ (L acc : List Row),
    (∀ c ∈ L, ∀ u ∈ acc, ¬ u.email = c.email) →
    List.Pairwise (fun a b => ¬ a.email = b.email) L →
    mergeUsers acc L = acc ++ L
  | [], acc, _, _ => by simp [mergeUsers]
  | c :: L, acc, h, hp => by
    have hc : acc.any (fun u => decide (u.email = c.email)) = false := by
      rw [List.any_eq_false]
      intro u hu
      simpa using h c (List.mem_cons_self c L) u hu
    unfold mergeUsers
    simp only [hc, Bool.false_eq_true, if_false]
    rw [mergeUsers_append_all L (acc ++ [c]) ?_ (List.Pairwise.of_cons hp)]
    · simp
    · intro d hd u hu
      rcases List.mem_append.mp hu with hu | hu
      · exact h d (List.mem_cons_of_mem c hd) u hu
      · rw [List.mem_singleton.mp hu]
        exact (List.pairwise_cons.mp hp).1 d hd

/-- Re-merging the output of a successful readCSV against the same
baseline keeps exactly the baseline (each normalized baseline row is
skipped against its own fresh copy) followed by the previously appended
cached rows (each appended again, their legacy emails being fresh for the
baseline and pairwise distinct). -/
theorem mergeUsers_restart (base L0 : List Row) (pA : Option String → String) :
    mergeUsers base ((base ++ mergeExtra base L0).map (normalizeRow pA)) =
      base ++ (mergeExtra base L0).map (normalizeRow pA) := by
  have h1 : ∀ c ∈ base.map (normalizeRow pA), ∃ u ∈ base, u.email = c.email := by
    intro c hc
    obtain ⟨b, hb, hbc⟩ := List.mem_map.mp hc
    exact ⟨b, hb, by rw [← hbc, normalizeRow_email]⟩
  have h2 : ∀ c ∈ (mergeExtra base L0).map (normalizeRow pA),
      ∀ u ∈ base, ¬ u.email = c.email := by
    intro c hc u hu
    obtain ⟨x, hx, hxc⟩ := List.mem_map.mp hc
    rw [← hxc, normalizeRow_email]
    exact mergeExtra_email_fresh L0 base x hx u hu
  have h3 : List.Pairwise (fun a b => ¬ a.email = b.email)
      ((mergeExtra base L0).map (normalizeRow pA)) := by
    rw [List.pairwise_map]
    refine (mergeExtra_pairwise L0 base).imp ?_
    intro a b hab
    rw [normalizeRow_email, normalizeRow_email]
    exact hab
  rw [List.map_append, mergeUsers_skip _ base h1, mergeUsers_append_all _ base h2 h3]

/-! ### Lemmas about findIndex and find? -/

theorem jsFindIndex_isSome {α : Type} (p : α → Bool) :
    ∀ (l : List α), (jsFindIndex p l).isSome = (l.find? p).isSome
  | [] => rfl
  | a :: l => by
    unfold jsFindIndex
    rw [List.find?_cons]
    by_cases ha : p a
    · simp [ha]
    · simp only [Bool.not_eq_true] at ha
      simp [ha, jsFindIndex_isSome p l]

theorem find?_set_of_jsFindIndex {α : Type} (p : α → Bool) (x : α)
    (hx : p x = true) : ∀ (l : List α) (i : Nat),
    jsFindIndex p l = some i → (l.set i x).find? p = some x
  | [], i, h => by simp [jsFindIndex] at h
  | a :: l, i, h => by
    unfold jsFindIndex at h
    by_cases ha : p a
    · rw [if_pos ha] at h
      obtain rfl : i = 0 := by injection h with h; exact h.symm
      rw [List.set]
      rw [List.find?_cons_of_pos _ hx]
    · rw [if_neg ha] at h
      obtain ⟨j, hj, rfl⟩ := Option.map_eq_some'.mp h
      rw [List.set]
      simp only [Bool.not_eq_true] at ha
      rw [List.find?_cons_of_neg _ (by simp [ha])]
      exact find?_set_of_jsFindIndex p x hx l j hj

/-- Changing which avatar chooser handled the baseline rows does not
change where a row matching a given email is found. -/
theorem jsFindIndex_norm_congr (e : String) (pA pB : Option String → String) :
    ∀ (base rest : List Row),
    jsFindIndex (rowEmailMatches e) (base.map (normalizeRow pB) ++ rest) =
      jsFindIndex (rowEmailMatches e) (base.map (normalizeRow pA) ++ rest)
  | [], _ => rfl
  | b :: base, rest => by
    simp only [List.map_cons, List.cons_append]
    unfold jsFindIndex
    rw [rowEmailMatches_normalizeRow, rowEmailMatches_normalizeRow]
    by_cases hb : rowEmailMatches e b
    · simp [hb]
    · simp only [Bool.not_eq_true] at hb
      simp only [hb, Bool.false_eq_true, if_false]
      rw [jsFindIndex_norm_congr e pA pB base rest]

theorem find?_none_norm_congr (e : String) (pA pB : Option String → String)
    (base rest : List Row)
    (h : (base.map (normalizeRow pA) ++ rest).find? (rowEmailMatches e) = none) :
    (base.map (normalizeRow pB) ++ rest).find? (rowEmailMatches e) = none := by
  rw [List.find?_eq_none] at h ⊢
  intro x hx
  rcases List.mem_append.mp hx with hx | hx
  · obtain ⟨b, hb, hbx⟩ := List.mem_map.mp hx
    rw [← hbx, rowEmailMatches_normalizeRow]
    have := h (normalizeRow pA b)
      (List.mem_append_left _ (List.mem_map.mpr ⟨b, hb, rfl⟩))
    rwa [rowEmailMatches_normalizeRow] at this
  · exact h x (List.mem_append_right _ hx)

theorem rowEmailMatches_rowOfCsvData (d : CsvData) :
    rowEmailMatches d.email_address (rowOfCsvData d) = true := by
  unfold rowEmailMatches rowOfCsvData
  simp

/-! ### State-shape lemmas for the individual operations -/

theorem readCSV_pres_details (B : Option (List Row))
    (pk : Option String → String) (s : St) :
    ((readCSV B pk s).1).details = s.details := by cases B <;> rfl

theorem readCSV_pres_deleted (B : Option (List Row))
    (pk : Option String → String) (s : St) :
    ((readCSV B pk s).1).deleted_images = s.deleted_images := by cases B <;> rfl

theorem deleteOldImage_pres_csv (p : String) (s : St) :
    (deleteOldImage p s).csv_users = s.csv_users := by
  unfold deleteOldImage
  split
  · rfl
  · split <;> rfl

theorem deleteOldImage_pres_details (p : String) (s : St) :
    (deleteOldImage p s).details = s.details := by
  unfold deleteOldImage
  split
  · rfl
  · split <;> rfl

theorem saveUserJson_pres_csv (n : String) (d : UserDetail)
    (o : Option String) (s : St) :
    ((saveUserJson n d o s).1).csv_users = s.csv_users := by
  unfold saveUserJson
  split <;> rfl

theorem saveUserJson_pres_deleted (n : String) (d : UserDetail)
    (o : Option String) (s : St) :
    ((saveUserJson n d o s).1).deleted_images = s.deleted_images := by
  unfold saveUserJson
  split <;> rfl

theorem updateCSVRow_pres_details (e : String) (d : CsvData)
    (oip : Option String) (B : Option (List Row))
    (pk : Option String → String) (s : St) :
    ((updateCSVRow e d oip B pk s).1).details = s.details := by
  unfold updateCSVRow
  cases h : jsFindIndex (rowEmailMatches e) (readCSV B pk s).2 with
  | none => simp only [h]; exact readCSV_pres_details B pk s
  | some i =>
    simp only [h]
    split
    · rw [deleteOldImage_pres_details]
      exact readCSV_pres_details B pk s
    · exact readCSV_pres_details B pk s

theorem loadUserJson_saveUserJson_self (n : String) (d : UserDetail)
    (o : Option String) (s : St) :
    loadUserJson n ((saveUserJson n d o s).1) = some d := by
  unfold saveUserJson loadUserJson
  exact lsGet_set_self _ _ _

/-- The user_json_ keys of distinct file names are distinct strings. -/
theorem userJsonKey_ne {a b : String} (h : getFileName a ≠ getFileName b) :
    ("user_json_" ++ getFileName a : String) ≠ "user_json_" ++ getFileName b := by
  intro he
  apply h
  have hd := congrArg String.data he
  simp only [String.data_append] at hd
  exact String.ext (List.append_cancel_left hd)

theorem loadUserJson_saveUserJson_old (n o : String) (d : UserDetail) (s : St)
    (ho : o ≠ "") (hon : o ≠ n) (hkey : getFileName o ≠ getFileName n) :
    loadUserJson o ((saveUserJson n d (some o) s).1) = none := by
  unfold saveUserJson loadUserJson
  have hcond : (jsTruthyS (some o) && decide ((some o : Option String) ≠ some n)) = true := by
    simp [jsTruthyS, ho, hon]
  simp only [hcond, if_true, Option.getD_some]
  rw [lsGet_set_ne _ _ _ _ (userJsonKey_ne hkey)]
  exact lsGet_remove_self _ _

/-! ### The two readCSV invocations inside one saveUserDataDual call -/

theorem readCSV_some_eq (base : List Row) (pk : Option String → String)
    (s : St) :
    readCSV (some base) pk s =
      ({ s with csv_users :=
          (base ++ mergeExtra base s.csv_users).map (normalizeRow pk) },
        (base ++ mergeExtra base s.csv_users).map (normalizeRow pk)) := by
  show ({ s with csv_users := (mergeUsers base s.csv_users).map (normalizeRow pk) },
      (mergeUsers base s.csv_users).map (normalizeRow pk)) = _
  rw [mergeUsers_eq]

/-- A second readCSV against the same baseline sees exactly the rows the
first one produced: the baseline (re-normalized by the new avatar chooser)
followed by the cached additions the first read kept. -/
theorem readCSV_after_read (base : List Row) (pA pB : Option String → String)
    (s : St) :
    readCSV (some base) pB ((readCSV (some base) pA s).1) =
      ({ s with csv_users := base.map (normalizeRow pB) ++
          (mergeExtra base s.csv_users).map (normalizeRow pA) },
        base.map (normalizeRow pB) ++
          (mergeExtra base s.csv_users).map (normalizeRow pA)) := by
  rw [readCSV_some_eq base pA s, readCSV_some_eq base pB]
  have hm : base ++ mergeExtra base
        ((base ++ mergeExtra base s.csv_users).map (normalizeRow pA)) =
      base ++ (mergeExtra base s.csv_users).map (normalizeRow pA) := by
    rw [← mergeUsers_eq, mergeUsers_restart]
  have hout : (base ++ mergeExtra base
        ((base ++ mergeExtra base s.csv_users).map (normalizeRow pA))).map
          (normalizeRow pB) =
      base.map (normalizeRow pB) ++
        (mergeExtra base s.csv_users).map (normalizeRow pA) := by
    rw [hm, List.map_append, map_norm_norm]
  rw [hout]

theorem readCSV_none_eq (pk : Option String → String) (s : St) :
    readCSV none pk s = (s, s.csv_users) := rfl

theorem findUserByEmail_pres_details (e : String) (B : Option (List Row))
    (pk : Option String → String) (s : St) :
    ((findUserByEmail e B pk s).1).details = s.details := by
  unfold findUserByEmail
  exact readCSV_pres_details B pk s

/-! ### The master lemmas about one saveUserDataDual call -/

/-- The detail half of a valid saveUserDataDual call is exactly its
saveUserJson step: nothing later touches the detail documents. -/
theorem sync_details_eq (p : Payload) (oldN oldI : Option String)
    (B : Option (List Row)) (pA pB : Option String → String) (s : St)
    (hval : validPayload p = true) :
    ((saveUserDataDual p oldN oldI B pA pB s).1).details =
      ((saveUserJson (effName p)
        (buildJsonData (effName p) (effEmail p) p) oldN s).1).details := by
  unfold saveUserDataDual
  rw [if_pos hval]
  dsimp only
  cases hf : (findUserByEmail (effEmail p) B pA
      ((saveUserJson (effName p)
        (buildJsonData (effName p) (effEmail p) p) oldN s).1)).2 with
  | some r =>
    simp only [hf]
    rw [updateCSVRow_pres_details]
    exact findUserByEmail_pres_details _ _ _ _
  | none =>
    simp only [hf]
    show ((readCSV B pB _).1).details = _
    rw [readCSV_pres_details]
    exact findUserByEmail_pres_details _ _ _ _

/-- After a valid saveUserDataDual call, the detail document of the
effective name holds exactly the defaulted payload. -/
theorem sync_loadDetail (p : Payload) (oldN oldI : Option String)
    (B : Option (List Row)) (pA pB : Option String → String) (s : St)
    (hval : validPayload p = true) :
    loadUserJson (effName p) ((saveUserDataDual p oldN oldI B pA pB s).1) =
      some (buildJsonData (effName p) (effEmail p) p) := by
  have h1 : loadUserJson (effName p) ((saveUserDataDual p oldN oldI B pA pB s).1) =
      loadUserJson (effName p) ((saveUserJson (effName p)
        (buildJsonData (effName p) (effEmail p) p) oldN s).1) := by
    unfold loadUserJson
    rw [sync_details_eq p oldN oldI B pA pB s hval]
  rw [h1]
  exact loadUserJson_saveUserJson_self _ _ _ _

/-- After a valid saveUserDataDual call with a rename whose old and new
names derive different keys, the old detail document is gone. -/
theorem sync_loadDetail_old (p : Payload) (o : String) (oldI : Option String)
    (B : Option (List Row)) (pA pB : Option String → String) (s : St)
    (hval : validPayload p = true) (ho : o ≠ "") (hon : o ≠ effName p)
    (hkey : getFileName o ≠ getFileName (effName p)) :
    loadUserJson o ((saveUserDataDual p (some o) oldI B pA pB s).1) = none := by
  have h1 : loadUserJson o ((saveUserDataDual p (some o) oldI B pA pB s).1) =
      loadUserJson o ((saveUserJson (effName p)
        (buildJsonData (effName p) (effEmail p) p) (some o) s).1) := by
    unfold loadUserJson
    rw [sync_details_eq p (some o) oldI B pA pB s hval]
  rw [h1]
  exact loadUserJson_saveUserJson_old _ _ _ _ ho hon hkey

/-- The summary half of a valid saveUserDataDual call: afterwards the
first row matching the effective email in csv_users is exactly the
freshly built new-format summary row, whatever the starting state. -/
theorem sync_row (p : Payload) (oldN oldI : Option String)
    (B : Option (List Row)) (pA pB : Option String → String) (s : St)
    (hval : validPayload p = true) :
    ((saveUserDataDual p oldN oldI B pA pB s).1).csv_users.find?
        (rowEmailMatches (effEmail p)) =
      some (rowOfCsvData (buildCsvData (effName p) (effEmail p) p)) := by
  have hprow : rowEmailMatches (effEmail p)
      (rowOfCsvData (buildCsvData (effName p) (effEmail p) p)) = true :=
    rowEmailMatches_rowOfCsvData _
  unfold saveUserDataDual
  rw [if_pos hval]
  dsimp only
  generalize (saveUserJson (effName p)
      (buildJsonData (effName p) (effEmail p) p) oldN s).1 = s1
  cases B with
  | none =>
    unfold findUserByEmail
    rw [readCSV_none_eq]
    dsimp only
    cases hf : s1.csv_users.find? (rowEmailMatches (effEmail p)) with
    | some r =>
      simp only [hf]
      unfold updateCSVRow
      rw [readCSV_none_eq]
      dsimp only
      have hidx : (jsFindIndex (rowEmailMatches (effEmail p))
          s1.csv_users).isSome = true := by
        rw [jsFindIndex_isSome, hf]
        rfl
      obtain ⟨i, hi⟩ := Option.isSome_iff_exists.mp hidx
      simp only [hi]
      exact find?_set_of_jsFindIndex _ _ hprow _ i hi
    | none =>
      simp only [hf]
      show (s1.csv_users ++ [rowOfCsvData _]).find? _ = _
      rw [List.find?_append, hf, Option.none_or]
      rw [List.find?_cons_of_pos _ hprow]
  | some base =>
    unfold findUserByEmail
    rw [readCSV_some_eq base pA s1]
    dsimp only
    cases hf : ((base ++ mergeExtra base s1.csv_users).map
        (normalizeRow pA)).find? (rowEmailMatches (effEmail p)) with
    | some r =>
      simp only [hf]
      unfold updateCSVRow
      rw [readCSV_some_eq base pB]
      dsimp only
      have hm : base ++ mergeExtra base
            ((base ++ mergeExtra base s1.csv_users).map (normalizeRow pA)) =
          base ++ (mergeExtra base s1.csv_users).map (normalizeRow pA) := by
        rw [← mergeUsers_eq, mergeUsers_restart]
      have hout2 : (base ++ mergeExtra base
            ((base ++ mergeExtra base s1.csv_users).map (normalizeRow pA))).map
              (normalizeRow pB) =
          base.map (normalizeRow pB) ++
            (mergeExtra base s1.csv_users).map (normalizeRow pA) := by
        rw [hm, List.map_append, map_norm_norm]
      rw [hout2]
      have hidx1 : (jsFindIndex (rowEmailMatches (effEmail p))
          ((base ++ mergeExtra base s1.csv_users).map
            (normalizeRow pA))).isSome = true := by
        rw [jsFindIndex_isSome, hf]
        rfl
      obtain ⟨i, hi⟩ := Option.isSome_iff_exists.mp hidx1
      have htrans : jsFindIndex (rowEmailMatches (effEmail p))
          (base.map (normalizeRow pB) ++
            (mergeExtra base s1.csv_users).map (normalizeRow pA)) = some i := by
        rw [jsFindIndex_norm_congr (effEmail p) pA pB]
        rw [← List.map_append]
        exact hi
      simp only [htrans]
      exact find?_set_of_jsFindIndex _ _ hprow _ i htrans
    | none =>
      simp only [hf]
      rw [readCSV_some_eq base pB]
      dsimp only
      have hm : base ++ mergeExtra base
            ((base ++ mergeExtra base s1.csv_users).map (normalizeRow pA)) =
          base ++ (mergeExtra base s1.csv_users).map (normalizeRow pA) := by
        rw [← mergeUsers_eq, mergeUsers_restart]
      have hout2 : (base ++ mergeExtra base
            ((base ++ mergeExtra base s1.csv_users).map (normalizeRow pA))).map
              (normalizeRow pB) =
          base.map (normalizeRow pB) ++
            (mergeExtra base s1.csv_users).map (normalizeRow pA) := by
        rw [hm, List.map_append, map_norm_norm]
      rw [hout2]
      have hf1 : (base.map (normalizeRow pA) ++
          (mergeExtra base s1.csv_users).map (normalizeRow pA)).find?
            (rowEmailMatches (effEmail p)) = none := by
        rw [← List.map_append]
        exact hf
      have hnone : (base.map (normalizeRow pB) ++
          (mergeExtra base s1.csv_users).map (normalizeRow pA)).find?
            (rowEmailMatches (effEmail p)) = none :=
        find?_none_norm_congr (effEmail p) pA pB _ _ hf1
      rw [List.find?_append, hnone, Option.none_or]
      rw [List.find?_cons_of_pos _ hprow]

/-! ### Lemmas about the deleted_images tracking list -/

theorem deleteOldImage_marked (p : String) (s : St)
    (h : p ∈ s.deleted_images) : deleteOldImage p s = s := by
  unfold deleteOldImage
  by_cases h0 : p = ""
  · rw [if_pos h0]
  · rw [if_neg h0, if_pos h]

theorem deleteOldImage_nodup (p : String) (s : St)
    (h : s.deleted_images.Nodup) : (deleteOldImage p s).deleted_images.Nodup := by
  unfold deleteOldImage
  split
  · exact h
  · split
    · exact h
    · show (s.deleted_images ++ [p]).Nodup
      rw [List.nodup_append]
      refine ⟨h, List.nodup_singleton p, ?_⟩
      intro x hx
      simp only [List.mem_singleton]
      intro hxp
      subst hxp
      exact absurd hx (by assumption)

theorem updateCSVRow_deleted_nodup (e : String) (d : CsvData)
    (oip : Option String) (B : Option (List Row))
    (pk : Option String → String) (s : St) (h : s.deleted_images.Nodup) :
    ((updateCSVRow e d oip B pk s).1).deleted_images.Nodup := by
  unfold updateCSVRow
  cases hidx : jsFindIndex (rowEmailMatches e) (readCSV B pk s).2 with
  | none =>
    simp only [hidx]
    rw [readCSV_pres_deleted]
    exact h
  | some i =>
    simp only [hidx]
    split
    · show (deleteOldImage _ _).deleted_images.Nodup
      apply deleteOldImage_nodup
      rw [readCSV_pres_deleted]
      exact h
    · show ((readCSV B pk s).1).deleted_images.Nodup
      rw [readCSV_pres_deleted]
      exact h

theorem sync_deleted_nodup (p : Payload) (oldN oldI : Option String)
    (B : Option (List Row)) (pA pB : Option String → String) (s : St)
    (h : s.deleted_images.Nodup) :
    ((saveUserDataDual p oldN oldI B pA pB s).1).deleted_images.Nodup := by
  unfold saveUserDataDual
  by_cases hval : validPayload p = true
  · rw [if_pos hval]
    dsimp only
    have hs1 : ((saveUserJson (effName p)
        (buildJsonData (effName p) (effEmail p) p) oldN s).1).deleted_images.Nodup := by
      rw [saveUserJson_pres_deleted]
      exact h
    cases hf : (findUserByEmail (effEmail p) B pA
        ((saveUserJson (effName p)
          (buildJsonData (effName p) (effEmail p) p) oldN s).1)).2 with
    | some r =>
      simp only [hf]
      apply updateCSVRow_deleted_nodup
      show ((readCSV B pA _).1).deleted_images.Nodup
      rw [readCSV_pres_deleted]
      exact hs1
    | none =>
      simp only [hf]
      show ((readCSV B pB _).1).deleted_images.Nodup
      rw [readCSV_pres_deleted]
      show ((readCSV B pA _).1).deleted_images.Nodup
      rw [readCSV_pres_deleted]
      exact hs1
  · rw [if_neg hval]
    exact h

theorem runSyncCalls_deleted_nodup : ∀ (calls : List SyncCall) (s : St),
    s.deleted_images.Nodup → (runSyncCalls calls s).deleted_images.Nodup
  | [], _, h => h
  | c :: calls, s, h => by
    show (runSyncCalls calls _).deleted_images.Nodup
    exact runSyncCalls_deleted_nodup calls _
      (sync_deleted_nodup c.payload c.oldName c.oldImagePath c.baseline
        c.pickA c.pickB s h)

/-! ### The claims -/

/-- C1: the claim says readCSV merges the baseline with locally added rows
keyed by email and loses no locally added record.  The code keys the merge
on the legacy email field with strict equality, under which two new-format
rows (absent field on both sides) match each other: with a successfully
loading empty baseline and two locally stored signup rows, the read drops
the second row from its result and overwrites the store without it, so the
record is lost.  This theorem evaluates the code on that failing trace. -/
theorem claim_C1_failing_trace :
    (((saveUserDataDual pCarolFix none none (some []) pkFix pkFix
        ((saveUserDataDual pBobFix none none (some []) pkFix pkFix st0).1)).1).csv_users.any
      fun r => decide (r.email_address = some "carol@x.test")) = true ∧
    ((readCSV (some []) pkFix
        ((saveUserDataDual pCarolFix none none (some []) pkFix pkFix
          ((saveUserDataDual pBobFix none none (some []) pkFix pkFix st0).1)).1)).2.any
      fun r => decide (r.email_address = some "carol@x.test")) = false ∧
    (((readCSV (some []) pkFix
        ((saveUserDataDual pCarolFix none none (some []) pkFix pkFix
          ((saveUserDataDual pBobFix none none (some []) pkFix pkFix st0).1)).1)).1).csv_users.any
      fun r => decide (r.email_address = some "carol@x.test")) = false := by
  decide

/-- C2: the claim says that under the signup gate the summary store never
holds two rows with the same case-insensitive email_address.  With a
legacy-format baseline row, editing that existing user twice (both calls
are for an existing account, so the gate is respected: the lookup by email
succeeds before each call) leaves csv_users with two rows carrying the
identical email_address, because the merge re-appends the stale new-format
copy it cannot match against the legacy baseline row.  This theorem
evaluates the code on that failing trace. -/
theorem claim_C2_failing_trace :
    ((findUserByEmail "ada@x.test" (some [adaBaselineRow]) pkFix st0).2).isSome = true ∧
    ((findUserByEmail "ada@x.test" (some [adaBaselineRow]) pkFix
        ((saveUserDataDual pAdaFix none none (some [adaBaselineRow]) pkFix pkFix
          st0).1)).2).isSome = true ∧
    (((saveUserDataDual pAdaFix none none (some [adaBaselineRow]) pkFix pkFix
        ((saveUserDataDual pAdaFix none none (some [adaBaselineRow]) pkFix pkFix
          st0).1)).1).csv_users.countP
      fun r => decide (r.email_address = some "ada@x.test")) = 2 := by
  decide

/-- C3 counterexample: the claim demands load(oldName) = null for every
oldName different from the new full_name, but when the two names derive
the same storage key the rename writes the new document onto the very key
it just deleted, and load(oldName) returns that document instead of null. -/
theorem claim_C3_counterexample :
    ("Ada-Lovelace" : String) ≠ "Ada Lovelace" ∧
    validPayload pSpaceFix = true ∧
    (loadUserJson "Ada-Lovelace"
      ((saveUserDataDual pSpaceFix (some "Ada-Lovelace") none (some [])
        pkFix pkFix
        ((saveUserDataDual pDashFix none none (some []) pkFix pkFix
          st0).1)).1)).isSome = true := by
  decide

/-- C3 amended: for a valid payload and a truthy previous name that
differs from the new effective name and derives a different storage key,
syncUser migrates the detail document (the old key reads null, the new key
holds the defaulted payload), and when the previous summary row was the
flattened payload under the old name, the stored summary row afterwards is
that row with only its full_name field changed. -/
theorem claim_C3 (p : Payload) (o : String) (B : Option (List Row))
    (pA pB : Option String → String) (s : St)
    (hval : validPayload p = true) (ho : o ≠ "") (hon : o ≠ effName p)
    (hkey : getFileName o ≠ getFileName (effName p)) :
    loadUserJson o ((saveUserDataDual p (some o) none B pA pB s).1) = none ∧
    loadUserJson (effName p) ((saveUserDataDual p (some o) none B pA pB s).1) =
      some (buildJsonData (effName p) (effEmail p) p) ∧
    ∀ (rOld : Row), rOld = rowOfCsvData
        { buildCsvData (effName p) (effEmail p) p with full_name := o } →
      ((saveUserDataDual p (some o) none B pA pB s).1).csv_users.find?
          (rowEmailMatches (effEmail p)) =
        some { rOld with full_name := some (effName p) } := by
  refine ⟨sync_loadDetail_old p o none B pA pB s hval ho hon hkey,
          sync_loadDetail p (some o) none B pA pB s hval, ?_⟩
  intro rOld hr
  subst hr
  rw [sync_row p (some o) none B pA pB s hval]
  rfl

theorem claim_C3_witness :
    validPayload pGraceFix = true ∧
    loadUserJson "Ada Lovelace"
      ((saveUserDataDual pGraceFix (some "Ada Lovelace") none (some [])
        pkFix pkFix st0).1) = none ∧
    loadUserJson (effName pGraceFix)
      ((saveUserDataDual pGraceFix (some "Ada Lovelace") none (some [])
        pkFix pkFix st0).1) =
      some (buildJsonData (effName pGraceFix) (effEmail pGraceFix) pGraceFix) :=
  ⟨by decide,
   (claim_C3 pGraceFix "Ada Lovelace" (some []) pkFix pkFix st0 (by decide)
     (by decide) (by decide) (by decide)).1,
   (claim_C3 pGraceFix "Ada Lovelace" (some []) pkFix pkFix st0 (by decide)
     (by decide) (by decide) (by decide)).2.1⟩

/-- C4 counterexample: the claim says the storage key is the name
lowercased with non-alphanumerics stripped and whitespace collapsed, but
getFileName replaces them with underscores instead of stripping them. -/
theorem claim_C4_counterexample :
    getFileName "A B" = "a_b" ∧ specKeyOfName "A B" = "ab" ∧
    getFileName "A B" ≠ specKeyOfName "A B" := by
  decide

/-- C4 amended: the storage key is the name with every character outside
a-zA-Z0-9 replaced by an underscore and the result lowercased (the
whitespace-collapsing stage never fires, whitespace having already been
replaced); consequently two distinct display names deriving the same key
collide onto one stored record. -/
theorem claim_C4 :
    (∀ (name : String), getFileName name =
      jsToLower (String.mk (name.data.map fun c => if jsIsAlnum c then c else '_'))) ∧
    (∀ (n1 n2 : String) (d : UserDetail) (s : St),
      getFileName n1 = getFileName n2 →
      loadUserJson n2 ((saveUserJson n1 d none s).1) = some d) := by
  constructor
  · intro name
    rw [getFileName_eq_simple]
    rfl
  · intro n1 n2 d s h
    unfold loadUserJson
    rw [← h]
    exact loadUserJson_saveUserJson_self n1 d none s

theorem claim_C4_witness :
    getFileName "Ada-Lovelace" = getFileName "Ada Lovelace" ∧
    loadUserJson "Ada Lovelace"
      ((saveUserJson "Ada-Lovelace" sampleDetail none st0).1) = some sampleDetail :=
  ⟨by decide,
   claim_C4.2 "Ada-Lovelace" "Ada Lovelace" sampleDetail st0 (by decide)⟩

/-- C5 counterexample: the claim says a payload with empty or absent
full_name (or email_address) makes syncUser fail fast with no write, but
the code falls back to the legacy name and email fields: a payload with
both new-format fields absent and legacy fields present returns true and
writes to the stores. -/
theorem claim_C5_counterexample :
    pLegacyFix.full_name = none ∧ pLegacyFix.email_address = none ∧
    (saveUserDataDual pLegacyFix none none (some []) pkFix pkFix st0).2 = true ∧
    (saveUserDataDual pLegacyFix none none (some []) pkFix pkFix st0).1 ≠ st0 := by
  decide

/-- C5 amended: when the effective name (full_name falling back to legacy
name) or the effective email (email_address falling back to legacy email)
is empty or absent, syncUser returns false and leaves the state unchanged:
no write reaches either store. -/
theorem claim_C5 (p : Payload) (oldN oldI : Option String)
    (B : Option (List Row)) (pA pB : Option String → String) (s : St)
    (h : jsTruthyS (jsOrS p.full_name p.name) = false ∨
         jsTruthyS (jsOrS p.email_address p.email) = false) :
    saveUserDataDual p oldN oldI B pA pB s = (s, false) := by
  have hv : validPayload p = false := by
    unfold validPayload
    rcases h with h | h <;> simp [h]
  unfold saveUserDataDual
  rw [if_neg (by simp [hv])]

theorem claim_C5_witness :
    jsTruthyS (jsOrS pNoNameFix.full_name pNoNameFix.name) = false ∧
    saveUserDataDual pNoNameFix none none none pkFix pkFix st0 = (st0, false) :=
  ⟨by decide,
   claim_C5 pNoNameFix none none none pkFix pkFix st0 (Or.inl (by decide))⟩

/-- C6: full-overwrite idempotence.  Two successive syncUser calls with
the identical valid payload and no name or image-path change leave the
same stored detail document and the same stored summary row after the
second call as after the first: both times the document is exactly the
defaulted payload and the row found by email is exactly the freshly built
new-format summary row, byte for byte. -/
theorem claim_C6 (p : Payload) (B : Option (List Row))
    (pA1 pB1 pA2 pB2 : Option String → String) (s : St)
    (hval : validPayload p = true) :
    loadUserJson (effName p)
        ((saveUserDataDual p none none B pA1 pB1 s).1) =
      some (buildJsonData (effName p) (effEmail p) p) ∧
    loadUserJson (effName p)
        ((saveUserDataDual p none none B pA2 pB2
          ((saveUserDataDual p none none B pA1 pB1 s).1)).1) =
      some (buildJsonData (effName p) (effEmail p) p) ∧
    ((saveUserDataDual p none none B pA1 pB1 s).1).csv_users.find?
        (rowEmailMatches (effEmail p)) =
      some (rowOfCsvData (buildCsvData (effName p) (effEmail p) p)) ∧
    ((saveUserDataDual p none none B pA2 pB2
        ((saveUserDataDual p none none B pA1 pB1 s).1)).1).csv_users.find?
        (rowEmailMatches (effEmail p)) =
      some (rowOfCsvData (buildCsvData (effName p) (effEmail p) p)) :=
  ⟨sync_loadDetail p none none B pA1 pB1 s hval,
   sync_loadDetail p none none B pA2 pB2 _ hval,
   sync_row p none none B pA1 pB1 s hval,
   sync_row p none none B pA2 pB2 _ hval⟩

theorem claim_C6_witness :
    validPayload pBobFix = true ∧
    loadUserJson (effName pBobFix)
        ((saveUserDataDual pBobFix none none (some []) pkFix pkFix
          ((saveUserDataDual pBobFix none none (some []) pkFix pkFix st0).1)).1) =
      some (buildJsonData (effName pBobFix) (effEmail pBobFix) pBobFix) :=
  ⟨by decide,
   (claim_C6 pBobFix (some []) pkFix pkFix pkFix pkFix st0 (by decide)).2.1⟩

/-- C7: partial-field clearing.  A valid payload that supplies an empty
list for skills or interests leaves exactly that empty list in the stored
detail record, whatever was stored before: the record is the defaulted
payload, whose list fields are taken wholesale from the payload. -/
theorem claim_C7 (p : Payload) (oldN oldI : Option String)
    (B : Option (List Row)) (pA pB : Option String → String) (s : St)
    (hval : validPayload p = true) :
    loadUserJson (effName p)
        ((saveUserDataDual p oldN oldI B pA pB s).1) =
      some (buildJsonData (effName p) (effEmail p) p) ∧
    (p.skills = some [] →
      (buildJsonData (effName p) (effEmail p) p).skills = []) ∧
    (p.interests = some [] →
      (buildJsonData (effName p) (effEmail p) p).interests = []) := by
  refine ⟨sync_loadDetail p oldN oldI B pA pB s hval, ?_, ?_⟩
  · intro h
    show listOr0 p.skills = []
    rw [h]
    rfl
  · intro h
    show listOr0 p.interests = []
    rw [h]
    rfl

theorem claim_C7_witness :
    validPayload pNoSkillFix = true ∧
    loadUserJson (effName pNoSkillFix)
        ((saveUserDataDual pNoSkillFix none none (some []) pkFix pkFix
          ((saveUserDataDual pPythonFix none none (some []) pkFix pkFix
            st0).1)).1) =
      some (buildJsonData (effName pNoSkillFix) (effEmail pNoSkillFix)
        pNoSkillFix) ∧
    (buildJsonData (effName pNoSkillFix) (effEmail pNoSkillFix)
      pNoSkillFix).skills = [] :=
  ⟨by decide,
   (claim_C7 pNoSkillFix none none (some []) pkFix pkFix
     ((saveUserDataDual pPythonFix none none (some []) pkFix pkFix st0).1)
     (by decide)).1,
   (claim_C7 pNoSkillFix none none (some []) pkFix pkFix
     ((saveUserDataDual pPythonFix none none (some []) pkFix pkFix st0).1)
     (by decide)).2.1 rfl⟩

/-- C8 counterexample: the claim says the returned boolean equals the
success of the detail write and is unaffected by the summary half, but on
the append branch a summary-store exception escapes to the outer catch:
with a valid payload, a successful detail write and a throwing append
write, the call returns false although the detail write succeeded. -/
theorem claim_C8_counterexample :
    validPayload pValidFix = true ∧
    saveUserDataDualResult pValidFix false true true true = false := by
  decide

/-- C8 amended: the returned boolean is true only if the detail write
succeeded, and on the existing-user branch it equals the detail-write flag
whatever the discarded updateCSVRow result is; only a throwing append
write can additionally force it to false. -/
theorem claim_C8 (p : Payload) (ef js u a : Bool) :
    (saveUserDataDualResult p ef js u a = true → js = true) ∧
    (ef = true →
      saveUserDataDualResult p ef js u a = (validPayload p && js)) := by
  unfold saveUserDataDualResult
  constructor
  · intro h
    by_cases hv : validPayload p = true
    · rw [if_pos hv] at h
      cases ef
      · simp only [Bool.false_eq_true, if_false] at h
        cases a
        · simpa using h
        · simp at h
      · simpa using h
    · rw [if_neg hv] at h
      simp at h
  · intro he
    subst he
    by_cases hv : validPayload p = true
    · simp [hv]
    · simp [hv, Bool.eq_false_iff.mpr hv]

theorem claim_C8_witness :
    (true : Bool) = true ∧
    saveUserDataDualResult pValidFix true false true false =
      (validPayload pValidFix && false) :=
  ⟨(claim_C8 pValidFix true true true false).1 (by decide),
   (claim_C8 pValidFix true false true false).2 rfl⟩

/-- C9: a rename between names that are different strings but derive the
same storage key is loss-free: the delete of the old key happens before
the write of the new key, so the record is still retrievable under the new
name afterwards. -/
theorem claim_C9 (name oldName : String) (record : UserDetail) (s : St)
    (hne : oldName ≠ name) (hkey : getFileName oldName = getFileName name) :
    loadUserJson name ((saveUserJson name record (some oldName) s).1) =
      some record :=
  loadUserJson_saveUserJson_self name record (some oldName) s

theorem claim_C9_witness :
    ("Ada-Lovelace" : String) ≠ "Ada Lovelace" ∧
    getFileName "Ada-Lovelace" = getFileName "Ada Lovelace" ∧
    loadUserJson "Ada Lovelace"
        ((saveUserJson "Ada Lovelace" sampleDetail (some "Ada-Lovelace")
          st0).1) = some sampleDetail :=
  ⟨by decide, by decide,
   claim_C9 "Ada Lovelace" "Ada-Lovelace" sampleDetail st0 (by decide)
     (by decide)⟩

/-- C10: the deferred-deletion list stays duplicate-free under every
sequence of syncUser calls started from a duplicate-free state (the empty
initial store in particular), and marking an already-marked path leaves
the state unchanged. -/
theorem claim_C10 (calls : List SyncCall) (s : St)
    (h : s.deleted_images.Nodup) :
    (runSyncCalls calls s).deleted_images.Nodup ∧
    (∀ (path : String) (t : St), path ∈ t.deleted_images →
      deleteOldImage path t = t) :=
  ⟨runSyncCalls_deleted_nodup calls s h,
   fun path t ht => deleteOldImage_marked path t ht⟩

theorem claim_C10_witness :
    st0.deleted_images.Nodup ∧
    (runSyncCalls [syncCallFix] st0).deleted_images.Nodup :=
  ⟨by decide, (claim_C10 [syncCallFix] st0 (by decide)).1⟩

end FrontEnd
